import Mathlib

/-!
Shallow embedding of `src/usgs_quakes_mm.py` (geonet-myanmar/myanmar-quake-data-fetcher).
Coordinates are embedded as rationals; Python exceptions are embedded as `Except` errors.
The geometry predicates (`point_in_ring`, `point_in_polygon`, `point_in_multipolygon`),
the boundary normalization and bounding-box computation of `main` (lines 50-67), and the
spatial-filtering loop of `main` (lines 109-123) are translated function by function.
-/

namespace UsgsQuakes

/-- A coordinate pair (longitude, latitude), embedded as rationals. -/
abbrev Coord := ℚ × ℚ

/-- A ring: an ordered sequence of coordinates, implicitly closed. -/
abbrev Ring := List Coord

/-- A polygon: ring 0 is the exterior, the rest are holes. -/
abbrev Polygon := List Ring

/-- A multi-polygon / polygon set: a list of polygons. -/
abbrev MultiPolygon := List Polygon

/-- The straddle test of line 18 of the source: `(y1 > y) != (y2 > y)`. -/
def straddles (y y1 y2 : ℚ) : Bool :=
  decide (y1 > y) != decide (y2 > y)

/-- The x-intercept of line 19 of the source: `(x2 - x1) * (y - y1) / (y2 - y1) + x1`. -/
def xinters (x1 y1 x2 y2 y : ℚ) : ℚ :=
  (x2 - x1) * (y - y1) / (y2 - y1) + x1

/-- One iteration of the loop of `point_in_ring` (lines 16-21), processing the
edge from `v1` to `v2` with current parity `inside`. -/
def edgeStep (x y : ℚ) (v1 v2 : Coord) (inside : Bool) : Bool :=
  if straddles y v1.2 v2.2 then
    if x < xinters v1.1 v1.2 v2.1 v2.2 y then !inside else inside
  else inside

/-- `point_in_ring(x, y, ring)` (lines 7-22): ray-casting point-in-ring test. -/
def point_in_ring (x y : ℚ) (ring : Ring) : Bool :=
  let n := ring.length
  if n < 3 then false
  else
    (List.range n).foldl
      (fun inside i => edgeStep x y (ring.getD i (0, 0)) (ring.getD ((i + 1) % n) (0, 0)) inside)
      false

/-- `point_in_polygon(x, y, poly)` (lines 24-34): inside the exterior ring and
not inside any hole. -/
def point_in_polygon (x y : ℚ) (poly : Polygon) : Bool :=
  match poly with
  | [] => false
  | ext :: holes =>
    if !point_in_ring x y ext then false
    else if holes.any (fun hole => point_in_ring x y hole) then false
    else true

/-- `point_in_multipolygon(x, y, multipoly)` (lines 36-38). -/
def point_in_multipolygon (x y : ℚ) (multipoly : MultiPolygon) : Bool :=
  multipoly.any (fun poly => point_in_polygon x y poly)

/-- A decoded GeoJSON geometry of one boundary feature: its `type` string
together with the coordinates payload that `main` (lines 50-57) reads for
that type. Any type other than Polygon and MultiPolygon is kept abstract. -/
inductive Geometry where
  | polygonGeom (coordinates : Polygon)
  | multiPolygonGeom (coordinates : MultiPolygon)
  | otherGeom (gtype : String)
deriving DecidableEq

/-- One iteration of the feature loop of `main` (lines 50-57): append Polygon
coordinates as one polygon, extend with MultiPolygon coordinates, ignore any
other geometry type. -/
def loadStep (polygons : MultiPolygon) (feat : Geometry) : MultiPolygon :=
  match feat with
  | .polygonGeom coords => polygons ++ [coords]
  | .multiPolygonGeom coords => polygons ++ coords
  | .otherGeom _ => polygons

/-- The feature loop of `main` (lines 47-57): accumulate polygons from the
boundary features. -/
def loadPolygons (features : List Geometry) : MultiPolygon :=
  features.foldl loadStep []

/-- Python exceptions raised by the boundary-loading part of `main`:
`SystemExit` (line 60) and `ValueError` (raised by `min`/`max` of an empty
sequence, lines 64-67). -/
inductive PyError where
  | systemExit (msg : String)
  | valueError (msg : String)
deriving DecidableEq

/-- Python `min` over a sequence of rationals: `ValueError` on an empty
sequence, otherwise the least element. -/
def pyMin : List ℚ → Except PyError ℚ
  | [] => .error (.valueError "min() arg is an empty sequence")
  | a :: l => .ok (l.foldl min a)

/-- Python `max` over a sequence of rationals: `ValueError` on an empty
sequence, otherwise the greatest element. -/
def pyMax : List ℚ → Except PyError ℚ
  | [] => .error (.valueError "max() arg is an empty sequence")
  | a :: l => .ok (l.foldl max a)

/-- Line 63 of the source: `[pt for poly in polygons for ring in poly for pt in ring]`. -/
def allPoints (polygons : MultiPolygon) : List Coord :=
  polygons.flatMap (fun poly => poly.flatMap (fun ring => ring))

/-- The bounding box: four scalars `(min_lon, max_lon, min_lat, max_lat)`. -/
structure BBox where
  min_lon : ℚ
  max_lon : ℚ
  min_lat : ℚ
  max_lat : ℚ
deriving DecidableEq

/-- The bounding-box computation of `main` (lines 63-67), evaluated in source
order: each of the four aggregations raises `ValueError` when there are no
vertices at all, and the first failure propagates. -/
def computeBBox (polygons : MultiPolygon) : Except PyError BBox :=
  let all_pts := allPoints polygons
  match pyMin (all_pts.map (fun pt => pt.1)) with
  | .error e => .error e
  | .ok min_lon =>
    match pyMax (all_pts.map (fun pt => pt.1)) with
    | .error e => .error e
    | .ok max_lon =>
      match pyMin (all_pts.map (fun pt => pt.2)) with
      | .error e => .error e
      | .ok min_lat =>
        match pyMax (all_pts.map (fun pt => pt.2)) with
        | .error e => .error e
        | .ok max_lat => .ok ⟨min_lon, max_lon, min_lat, max_lat⟩

/-- The boundary-loading phase of `main` (lines 50-67): normalize the features
into a polygon set, fail with `SystemExit` when it is empty (lines 59-60),
then compute the bounding box. -/
def boundaryLoader (features : List Geometry) : Except PyError (MultiPolygon × BBox) :=
  let polygons := loadPolygons features
  if polygons.isEmpty then
    .error (.systemExit "No polygon geometry found in admin0.json")
  else
    match computeBBox polygons with
    | .error e => .error e
    | .ok bbox => .ok (polygons, bbox)

/-- The geometry object of one candidate feature record: its `coordinates`
field, `none` when absent or null. -/
structure FeatGeometry where
  coordinates : Option (List ℚ)
deriving DecidableEq

/-- A candidate feature record from the fetch: an opaque passthrough payload
plus a geometry field, `none` when absent or null. -/
structure Feature where
  payload : Nat
  geometry : Option FeatGeometry
deriving DecidableEq

/-- Line 111 of the source: the coordinates of the feature geometry, with a
missing or null geometry and missing or null coordinates both defaulting to
the empty list. -/
def featureCoords (f : Feature) : List ℚ :=
  match f.geometry with
  | none => []
  | some g =>
    match g.coordinates with
    | none => []
    | some coords => coords

/-- One iteration of the spatial-filtering loop of `main` (lines 110-114):
append the feature to the accumulator iff its coordinate payload has at least
two elements and its first two coordinates lie in the multipolygon. -/
def filterStep (polygons : MultiPolygon) (filtered : List Feature) (f : Feature) :
    List Feature :=
  let coords := featureCoords f
  if 2 ≤ coords.length then
    if point_in_multipolygon (coords.getD 0 0) (coords.getD 1 0) polygons then
      filtered ++ [f]
    else filtered
  else filtered

/-- The spatial-filtering loop of `main` (lines 109-114). -/
def mainFilter (all_features : List Feature) (polygons : MultiPolygon) : List Feature :=
  all_features.foldl (filterStep polygons) []

/-- The filtering result together with the two counters written into the
output metadata (lines 117-123): `count = len(filtered)` and
`bboxCount = len(all_features)`. -/
structure FilterResult where
  features : List Feature
  count : Nat
  bboxCount : Nat
deriving DecidableEq

/-- Filtering plus result assembly (lines 109-123). -/
def filterPipeline (all_features : List Feature) (polygons : MultiPolygon) : FilterResult :=
  let filtered := mainFilter all_features polygons
  ⟨filtered, filtered.length, all_features.length⟩

/-- The per-feature keep condition, as the specification describes it: the
coordinate array has at least two elements and the point made of its first two
elements is in the multipolygon. -/
def keepFeature (polygons : MultiPolygon) (f : Feature) : Bool :=
  let coords := featureCoords f
  decide (2 ≤ coords.length) && point_in_multipolygon (coords.getD 0 0) (coords.getD 1 0) polygons

/-- Modelled from the spec: the even-odd ray-casting rule exactly as §4.1 of
the specification words it, starting from parity false, iterating over every
edge `(ring[i], ring[(i+1) mod n])` and toggling the parity flag iff
`(y1 > y) != (y2 > y)` and `x < x1 + (x2-x1)*(y-y1)/(y2-y1)`; the final
parity is the result. Compared against `point_in_ring` in the refinement
theorem for rings with at least three vertices. -/
def rayCastingSpec (x y : ℚ) (ring : Ring) : Bool :=
  (List.range ring.length).foldl
    (fun parity i =>
      let v1 := ring.getD i (0, 0)
      let v2 := ring.getD ((i + 1) % ring.length) (0, 0)
      if (decide (v1.2 > y) != decide (v2.2 > y))
          && decide (x < v1.1 + (v2.1 - v1.1) * (y - v1.2) / (v2.2 - v1.2)) then
        !parity
      else parity)
    false

/-- Per-geometry polygon contribution, as the specification describes the
normalization: one polygon for a Polygon feature, all polygons of a
MultiPolygon feature, nothing otherwise. -/
def geomPolygons : Geometry → MultiPolygon
  | .polygonGeom coords => [coords]
  | .multiPolygonGeom coords => coords
  | .otherGeom _ => []

/-- Exterior square with a square hole, from §8 of the specification. -/
def holePoly : Polygon :=
  [[(0, 0), (10, 0), (10, 10), (0, 10)], [(4, 4), (6, 4), (6, 6), (4, 6)]]

/-- A unit test square polygon: [(0,0),(4,0),(4,4),(0,4)]. -/
def squareA : Polygon := [[(0, 0), (4, 0), (4, 4), (0, 4)]]

/-- A second square, disjoint from `squareA`. -/
def squareB : Polygon := [[(10, 0), (14, 0), (14, 4), (10, 4)]]

/-- A third square, overlapping `squareA`. -/
def squareC : Polygon := [[(2, 0), (6, 0), (6, 4), (2, 4)]]

/-- One loop iteration of `point_in_ring`, rephrased as the specification
words the toggle rule: the parity is toggled iff the straddle test holds and
`x < x1 + (x2-x1)*(y-y1)/(y2-y1)`. -/
lemma edgeStep_eq_spec (x y : ℚ) (v1 v2 : Coord) (b : Bool) :
    edgeStep x y v1 v2 b =
      if (decide (v1.2 > y) != decide (v2.2 > y))
          && decide (x < v1.1 + (v2.1 - v1.1) * (y - v1.2) / (v2.2 - v1.2)) then !b
      else b := by
  unfold edgeStep straddles xinters
  cases hs : (decide (v1.2 > y) != decide (v2.2 > y)) with
  | false => simp [hs]
  | true =>
    by_cases hlt : x < (v2.1 - v1.1) * (y - v1.2) / (v2.2 - v1.2) + v1.1
    · have hlt2 : x < v1.1 + (v2.1 - v1.1) * (y - v1.2) / (v2.2 - v1.2) := by
        rw [add_comm v1.1 ((v2.1 - v1.1) * (y - v1.2) / (v2.2 - v1.2))]
        exact hlt
      simp [hs, hlt, hlt2]
    · have hlt2 : ¬ x < v1.1 + (v2.1 - v1.1) * (y - v1.2) / (v2.2 - v1.2) := by
        rw [add_comm v1.1 ((v2.1 - v1.1) * (y - v1.2) / (v2.2 - v1.2))]
        exact hlt
      simp [hs, hlt, hlt2]

/-- C1: for every ring with at least 3 vertices and every point (x, y),
`point_in_ring` returns exactly the even-odd ray-casting result described by
the specification: starting from parity false and iterating over every edge
`(ring[i], ring[(i+1) mod n])`, the parity flag is toggled iff
`(y1 > y) != (y2 > y)` and `x < x1 + (x2-x1)*(y-y1)/(y2-y1)`, and the final
parity is the returned containment value. -/
theorem point_in_ring_eq_rayCastingSpec (ring : Ring) (x y : ℚ)
    (h : 3 ≤ ring.length) :
    point_in_ring x y ring = rayCastingSpec x y ring := by
  unfold point_in_ring rayCastingSpec
  have hn : ¬ ring.length < 3 := not_lt.mpr h
  simp only [hn, if_false]
  exact List.foldl_ext _ _ false (fun b i _ => edgeStep_eq_spec x y _ _ b)

/-- Witness for C1: the square ring [(0,0),(4,0),(4,4),(0,4)] has at least 3
vertices and `point_in_ring` agrees with the specification rule at (2, 2). -/
theorem point_in_ring_eq_rayCastingSpec_witness :
    3 ≤ ([((0 : ℚ), (0 : ℚ)), (4, 0), (4, 4), (0, 4)] : Ring).length ∧
      point_in_ring 2 2 [((0 : ℚ), (0 : ℚ)), (4, 0), (4, 4), (0, 4)]
        = rayCastingSpec 2 2 [((0 : ℚ), (0 : ℚ)), (4, 0), (4, 4), (0, 4)] :=
  ⟨by norm_num, point_in_ring_eq_rayCastingSpec _ 2 2 (by norm_num)⟩

/-- C2: `point_in_polygon` returns false on a polygon with no rings; on a
polygon with exterior ring and holes it returns true iff the point is in the
exterior ring and in none of the holes; and on the concrete
polygon-with-hole it gives false at (5,5), true at (1,1) and true at (5,9). -/
theorem point_in_polygon_spec :
    (∀ x y : ℚ, point_in_polygon x y [] = false) ∧
    (∀ (x y : ℚ) (outer : Ring) (holes : List Ring),
      point_in_polygon x y (outer :: holes)
        = (point_in_ring x y outer
            && !(holes.any (fun hole => point_in_ring x y hole)))) ∧
    point_in_polygon 5 5 holePoly = false ∧
    point_in_polygon 1 1 holePoly = true ∧
    point_in_polygon 5 9 holePoly = true := by
  refine ⟨fun x y => rfl, fun x y outer holes => ?_, ?_, ?_, ?_⟩
  · unfold point_in_polygon
    cases h1 : point_in_ring x y outer <;>
      cases h2 : holes.any (fun hole => point_in_ring x y hole) <;> simp [h1, h2]
  · norm_num [point_in_polygon, point_in_ring, edgeStep, straddles, xinters,
      List.range_succ, holePoly]
  · norm_num [point_in_polygon, point_in_ring, edgeStep, straddles, xinters,
      List.range_succ, holePoly]
  · norm_num [point_in_polygon, point_in_ring, edgeStep, straddles, xinters,
      List.range_succ, holePoly]

/-- C3: `point_in_multipolygon` returns true iff `point_in_polygon` is true
for at least one polygon of the set (OR semantics); concretely, for two
disjoint squares a point inside either gives true and a point inside neither
gives false, and a point inside both of two overlapping squares gives true. -/
theorem point_in_multipolygon_spec :
    (∀ (x y : ℚ) (multipoly : MultiPolygon),
      point_in_multipolygon x y multipoly = true
        ↔ ∃ poly ∈ multipoly, point_in_polygon x y poly = true) ∧
    point_in_multipolygon 2 2 [squareA, squareB] = true ∧
    point_in_multipolygon 12 2 [squareA, squareB] = true ∧
    point_in_multipolygon 20 20 [squareA, squareB] = false ∧
    point_in_multipolygon 3 2 [squareA, squareC] = true ∧
    point_in_polygon 3 2 squareA = true ∧
    point_in_polygon 3 2 squareC = true := by
  refine ⟨fun x y multipoly => ?_, ?_, ?_, ?_, ?_, ?_, ?_⟩
  · simp [point_in_multipolygon, List.any_eq_true]
  all_goals
    norm_num [point_in_multipolygon, point_in_polygon, point_in_ring, edgeStep,
      straddles, xinters, List.range_succ, squareA, squareB, squareC]

/-- C5: for every ring with fewer than 3 vertices and every point (x, y),
`point_in_ring` returns false. -/
theorem point_in_ring_degenerate (ring : Ring) (x y : ℚ) (h : ring.length < 3) :
    point_in_ring x y ring = false := by
  unfold point_in_ring
  simp [h]

/-- Witness for C5: a two-vertex ring has fewer than 3 vertices and contains
no point. -/
theorem point_in_ring_degenerate_witness :
    ([((0 : ℚ), (0 : ℚ)), (1, 1)] : Ring).length < 3 ∧
      point_in_ring 5 7 [((0 : ℚ), (0 : ℚ)), (1, 1)] = false :=
  ⟨by norm_num, point_in_ring_degenerate _ 5 7 (by norm_num)⟩

/-- C6: whenever the straddle test `(y1 > y) != (y2 > y)` of `point_in_ring`
holds, the divisor `y2 - y1` of the x-intercept is nonzero — so the division
is never a division by zero — and an exactly horizontal edge (both endpoints
at the same height) never toggles the parity. -/
theorem straddles_div_nonzero (x y x1 x2 c y1 y2 : ℚ) (inside : Bool)
    (h : straddles y y1 y2 = true) :
    y2 - y1 ≠ 0 ∧ edgeStep x y (x1, c) (x2, c) inside = inside := by
  constructor
  · intro hzero
    have hy : y1 = y2 := by
      have := sub_eq_zero.mp hzero
      linarith
    rw [hy] at h
    simp [straddles] at h
  · simp [edgeStep, straddles]

/-- Witness for C6: the edge from height 1 to height 3 straddles height 2,
its divisor 3 - 1 is nonzero, and the horizontal edge (5,7)-(9,7) leaves the
parity flag true unchanged. -/
theorem straddles_div_nonzero_witness :
    straddles 2 1 3 = true ∧
      ((3 : ℚ) - 1 ≠ 0 ∧ edgeStep 0 2 (5, 7) (9, 7) true = true) :=
  ⟨by norm_num [straddles], straddles_div_nonzero 0 2 5 9 7 1 3 true (by norm_num [straddles])⟩

/-- A candidate feature kept by the filter: coordinates [2, 2], inside `squareA`. -/
def featA : Feature := ⟨1, some ⟨some [2, 2]⟩⟩

/-- A candidate feature with coordinates [20, 20], outside `squareA`. -/
def featB : Feature := ⟨2, some ⟨some [20, 20]⟩⟩

/-- A candidate feature whose coordinate array has a single element. -/
def featShort : Feature := ⟨3, some ⟨some [1]⟩⟩

/-- A candidate feature with no geometry field at all. -/
def featNoGeom : Feature := ⟨4, none⟩

/-- One filtering iteration, rephrased through the keep condition. -/
lemma filterStep_eq (polygons : MultiPolygon) (filtered : List Feature) (f : Feature) :
    filterStep polygons filtered f
      = if keepFeature polygons f then filtered ++ [f] else filtered := by
  unfold filterStep keepFeature
  by_cases h1 : 2 ≤ (featureCoords f).length
  · cases h2 : point_in_multipolygon ((featureCoords f).getD 0 0)
        ((featureCoords f).getD 1 0) polygons with
    | false => simp [h1, h2]
    | true => simp [h1, h2]
  · simp [h1]

/-- The filtering loop of `main`, with any accumulator, equals the
accumulator followed by the stable filter by `keepFeature`. -/
lemma mainFilter_foldl_acc (polygons : MultiPolygon) (fs : List Feature)
    (acc : List Feature) :
    fs.foldl (filterStep polygons) acc = acc ++ fs.filter (keepFeature polygons) := by
  induction fs generalizing acc with
  | nil => simp
  | cons f fs ih =>
    rw [List.foldl_cons, filterStep_eq, List.filter_cons]
    cases hk : keepFeature polygons f with
    | false => simp [hk, ih]
    | true => simp [hk, ih]

/-- The filtering loop of `main` is a stable filter by `keepFeature`. -/
lemma mainFilter_eq_filter (all_features : List Feature) (polygons : MultiPolygon) :
    mainFilter all_features polygons = all_features.filter (keepFeature polygons) := by
  unfold mainFilter
  simpa using mainFilter_foldl_acc polygons all_features []

/-- C4: the kept output of the filtering pipeline is exactly the stable filter
of the input by the keep condition (at least two coordinates and containment
of the first two in the multipolygon) — hence a sublist of the input, in
original order, with unmodified records — the reported `bboxCount` is the
input length, the reported `count` is the kept length, and any feature whose
coordinate array has fewer than two elements fails the keep condition, so it
is silently excluded without any error. -/
theorem filterPipeline_spec (polygons : MultiPolygon) (all_features : List Feature)
    (f : Feature) (hf : (featureCoords f).length < 2) :
    (filterPipeline all_features polygons).features
        = all_features.filter (keepFeature polygons) ∧
    ((filterPipeline all_features polygons).features).Sublist all_features ∧
    (filterPipeline all_features polygons).bboxCount = all_features.length ∧
    (filterPipeline all_features polygons).count
        = (filterPipeline all_features polygons).features.length ∧
    keepFeature polygons f = false := by
  have hfeat : (filterPipeline all_features polygons).features
      = all_features.filter (keepFeature polygons) :=
    mainFilter_eq_filter all_features polygons
  refine ⟨hfeat, ?_, rfl, rfl, ?_⟩
  · rw [hfeat]
    exact List.filter_sublist all_features
  · have h2 : ¬ 2 ≤ (featureCoords f).length := not_le.mpr hf
    simp [keepFeature, h2]

/-- Witness for C4: on the concrete input [featA, featB, featShort] against
[squareA], featShort has fewer than two coordinates and the pipeline keeps
exactly the filtered sublist with the stated counts. -/
theorem filterPipeline_spec_witness :
    (featureCoords featShort).length < 2 ∧
      ((filterPipeline [featA, featB, featShort] [squareA]).features
          = [featA, featB, featShort].filter (keepFeature [squareA]) ∧
        ((filterPipeline [featA, featB, featShort] [squareA]).features).Sublist
          [featA, featB, featShort] ∧
        (filterPipeline [featA, featB, featShort] [squareA]).bboxCount
          = [featA, featB, featShort].length ∧
        (filterPipeline [featA, featB, featShort] [squareA]).count
          = (filterPipeline [featA, featB, featShort] [squareA]).features.length ∧
        keepFeature [squareA] featShort = false) :=
  ⟨by norm_num [featureCoords, featShort],
    filterPipeline_spec [squareA] [featA, featB, featShort] featShort
      (by norm_num [featureCoords, featShort])⟩

/-- A left fold of `min` is bounded by its initial value. -/
lemma foldl_min_le_init (l : List ℚ) (a : ℚ) : l.foldl min a ≤ a := by
  induction l generalizing a with
  | nil => simp
  | cons b l ih =>
    rw [List.foldl_cons]
    exact le_trans (ih (min a b)) (min_le_left a b)

/-- A left fold of `min` is bounded by every member of the list. -/
lemma foldl_min_le_mem (l : List ℚ) (a b : ℚ) (hb : b ∈ l) : l.foldl min a ≤ b := by
  induction l generalizing a with
  | nil => cases hb
  | cons c l ih =>
    rw [List.foldl_cons]
    rcases List.mem_cons.mp hb with h | h
    · subst h
      exact le_trans (foldl_min_le_init l (min a b)) (min_le_right a b)
    · exact ih (min a c) h

/-- A left fold of `min` is the initial value or a member of the list. -/
lemma foldl_min_mem (l : List ℚ) (a : ℚ) : l.foldl min a ∈ a :: l := by
  induction l generalizing a with
  | nil => simp
  | cons b l ih =>
    rw [List.foldl_cons]
    rcases List.mem_cons.mp (ih (min a b)) with h | h
    · rcases min_choice a b with hm | hm
      · rw [h, hm]
        exact List.mem_cons_self a (b :: l)
      · rw [h, hm]
        exact List.mem_cons_of_mem a (List.mem_cons_self b l)
    · exact List.mem_cons_of_mem a (List.mem_cons_of_mem b h)

/-- A left fold of `max` dominates its initial value. -/
lemma le_foldl_max_init (l : List ℚ) (a : ℚ) : a ≤ l.foldl max a := by
  induction l generalizing a with
  | nil => simp
  | cons b l ih =>
    rw [List.foldl_cons]
    exact le_trans (le_max_left a b) (ih (max a b))

/-- A left fold of `max` dominates every member of the list. -/
lemma le_foldl_max_mem (l : List ℚ) (a b : ℚ) (hb : b ∈ l) : b ≤ l.foldl max a := by
  induction l generalizing a with
  | nil => cases hb
  | cons c l ih =>
    rw [List.foldl_cons]
    rcases List.mem_cons.mp hb with h | h
    · subst h
      exact le_trans (le_max_right a b) (le_foldl_max_init l (max a b))
    · exact ih (max a c) h

/-- A left fold of `max` is the initial value or a member of the list. -/
lemma foldl_max_mem (l : List ℚ) (a : ℚ) : l.foldl max a ∈ a :: l := by
  induction l generalizing a with
  | nil => simp
  | cons b l ih =>
    rw [List.foldl_cons]
    rcases List.mem_cons.mp (ih (max a b)) with h | h
    · rcases max_choice a b with hm | hm
      · rw [h, hm]
        exact List.mem_cons_self a (b :: l)
      · rw [h, hm]
        exact List.mem_cons_of_mem a (List.mem_cons_self b l)
    · exact List.mem_cons_of_mem a (List.mem_cons_of_mem b h)

/-- A successful `pyMin` yields a member of the list that bounds it below. -/
lemma pyMin_spec (l : List ℚ) (m : ℚ) (h : pyMin l = .ok m) :
    m ∈ l ∧ ∀ b ∈ l, m ≤ b := by
  cases l with
  | nil => simp [pyMin] at h
  | cons a l =>
    simp only [pyMin, Except.ok.injEq] at h
    subst h
    refine ⟨foldl_min_mem l a, ?_⟩
    intro b hb
    rcases List.mem_cons.mp hb with h | h
    · subst h
      exact foldl_min_le_init l b
    · exact foldl_min_le_mem l a b h

/-- A successful `pyMax` yields a member of the list that bounds it above. -/
lemma pyMax_spec (l : List ℚ) (m : ℚ) (h : pyMax l = .ok m) :
    m ∈ l ∧ ∀ b ∈ l, b ≤ m := by
  cases l with
  | nil => simp [pyMax] at h
  | cons a l =>
    simp only [pyMax, Except.ok.injEq] at h
    subst h
    refine ⟨foldl_max_mem l a, ?_⟩
    intro b hb
    rcases List.mem_cons.mp hb with h | h
    · subst h
      exact le_foldl_max_init l b
    · exact le_foldl_max_mem l a b h

/-- A successful bounding-box computation records the results of the four
aggregations of lines 64-67 in its four fields. -/
lemma computeBBox_ok (polygons : MultiPolygon) (bbox : BBox)
    (h : computeBBox polygons = .ok bbox) :
    pyMin ((allPoints polygons).map (fun pt => pt.1)) = .ok bbox.min_lon ∧
    pyMax ((allPoints polygons).map (fun pt => pt.1)) = .ok bbox.max_lon ∧
    pyMin ((allPoints polygons).map (fun pt => pt.2)) = .ok bbox.min_lat ∧
    pyMax ((allPoints polygons).map (fun pt => pt.2)) = .ok bbox.max_lat := by
  unfold computeBBox at h
  dsimp only at h
  cases h1 : pyMin ((allPoints polygons).map (fun pt => pt.1)) with
  | error e => rw [h1] at h; simp at h
  | ok m1 =>
    rw [h1] at h
    cases h2 : pyMax ((allPoints polygons).map (fun pt => pt.1)) with
    | error e => rw [h2] at h; simp at h
    | ok m2 =>
      rw [h2] at h
      cases h3 : pyMin ((allPoints polygons).map (fun pt => pt.2)) with
      | error e => rw [h3] at h; simp at h
      | ok m3 =>
        rw [h3] at h
        cases h4 : pyMax ((allPoints polygons).map (fun pt => pt.2)) with
        | error e => rw [h4] at h; simp at h
        | ok m4 =>
          rw [h4] at h
          simp only [Except.ok.injEq] at h
          subst h
          exact ⟨rfl, rfl, rfl, rfl⟩

/-- C7: whenever the bounding-box computation succeeds, its four fields are
exactly the minimum and maximum of the x coordinates and the minimum and
maximum of the y coordinates over every vertex of every ring of every
polygon: every vertex lies within the box, and each of the four bounds is
attained by some vertex. -/
theorem computeBBox_minmax (polygons : MultiPolygon) (bbox : BBox)
    (h : computeBBox polygons = .ok bbox) :
    (∀ p ∈ allPoints polygons,
        bbox.min_lon ≤ p.1 ∧ p.1 ≤ bbox.max_lon ∧
        bbox.min_lat ≤ p.2 ∧ p.2 ≤ bbox.max_lat) ∧
    (∃ p ∈ allPoints polygons, p.1 = bbox.min_lon) ∧
    (∃ p ∈ allPoints polygons, p.1 = bbox.max_lon) ∧
    (∃ p ∈ allPoints polygons, p.2 = bbox.min_lat) ∧
    (∃ p ∈ allPoints polygons, p.2 = bbox.max_lat) := by
  obtain ⟨h1, h2, h3, h4⟩ := computeBBox_ok polygons bbox h
  obtain ⟨hm1, hb1⟩ := pyMin_spec _ _ h1
  obtain ⟨hm2, hb2⟩ := pyMax_spec _ _ h2
  obtain ⟨hm3, hb3⟩ := pyMin_spec _ _ h3
  obtain ⟨hm4, hb4⟩ := pyMax_spec _ _ h4
  refine ⟨?_, ?_, ?_, ?_, ?_⟩
  · intro p hp
    exact ⟨hb1 p.1 (List.mem_map_of_mem _ hp), hb2 p.1 (List.mem_map_of_mem _ hp),
      hb3 p.2 (List.mem_map_of_mem _ hp), hb4 p.2 (List.mem_map_of_mem _ hp)⟩
  · obtain ⟨p, hp, hpe⟩ := List.mem_map.mp hm1
    exact ⟨p, hp, hpe⟩
  · obtain ⟨p, hp, hpe⟩ := List.mem_map.mp hm2
    exact ⟨p, hp, hpe⟩
  · obtain ⟨p, hp, hpe⟩ := List.mem_map.mp hm3
    exact ⟨p, hp, hpe⟩
  · obtain ⟨p, hp, hpe⟩ := List.mem_map.mp hm4
    exact ⟨p, hp, hpe⟩

/-- Witness for C7: for the polygon set of the two disjoint squares, the
computation succeeds with box (0, 14, 0, 4), which is the min/max over all
their vertices combined. -/
theorem computeBBox_minmax_witness :
    computeBBox [squareA, squareB] = .ok ⟨0, 14, 0, 4⟩ ∧
      ((∀ p ∈ allPoints [squareA, squareB],
          (BBox.mk 0 14 0 4).min_lon ≤ p.1 ∧ p.1 ≤ (BBox.mk 0 14 0 4).max_lon ∧
          (BBox.mk 0 14 0 4).min_lat ≤ p.2 ∧ p.2 ≤ (BBox.mk 0 14 0 4).max_lat) ∧
        (∃ p ∈ allPoints [squareA, squareB], p.1 = (BBox.mk 0 14 0 4).min_lon) ∧
        (∃ p ∈ allPoints [squareA, squareB], p.1 = (BBox.mk 0 14 0 4).max_lon) ∧
        (∃ p ∈ allPoints [squareA, squareB], p.2 = (BBox.mk 0 14 0 4).min_lat) ∧
        (∃ p ∈ allPoints [squareA, squareB], p.2 = (BBox.mk 0 14 0 4).max_lat)) :=
  ⟨by norm_num [computeBBox, allPoints, pyMin, pyMax, squareA, squareB, min_def, max_def],
    computeBBox_minmax [squareA, squareB] ⟨0, 14, 0, 4⟩
      (by norm_num [computeBBox, allPoints, pyMin, pyMax, squareA, squareB, min_def, max_def])⟩

/-- One feature-loop iteration appends exactly the polygon
contribution. -/
lemma loadStep_eq (acc : MultiPolygon) (feat : Geometry) :
    loadStep acc feat = acc ++ geomPolygons feat := by
  cases feat <;> simp [loadStep, geomPolygons]

/-- The feature loop, with any accumulator, appends the per-feature polygon
contribution in order. -/
lemma loadPolygons_foldl_acc (features : List Geometry) (acc : MultiPolygon) :
    features.foldl loadStep acc = acc ++ features.flatMap geomPolygons := by
  induction features generalizing acc with
  | nil => simp
  | cons feat features ih =>
    rw [List.foldl_cons, loadStep_eq, ih]
    simp [List.append_assoc]

/-- The normalized polygon set is the concatenation of the per-feature
polygon contributions. -/
lemma loadPolygons_eq_flatMap (features : List Geometry) :
    loadPolygons features = features.flatMap geomPolygons := by
  unfold loadPolygons
  simpa using loadPolygons_foldl_acc features []

/-- The bounding-box computation either fails with the empty-sequence
`ValueError` (exactly when there are no vertices at all) or succeeds. -/
lemma computeBBox_cases (polygons : MultiPolygon) :
    (allPoints polygons = [] ∧
      computeBBox polygons = .error (.valueError "min() arg is an empty sequence")) ∨
    (allPoints polygons ≠ [] ∧ ∃ bbox, computeBBox polygons = .ok bbox) := by
  cases hap : allPoints polygons with
  | nil =>
    left
    exact ⟨rfl, by simp [computeBBox, hap, pyMin]⟩
  | cons p ps =>
    right
    refine ⟨by simp [hap], ?_⟩
    refine ⟨⟨(ps.map (fun pt => pt.1)).foldl min p.1, (ps.map (fun pt => pt.1)).foldl max p.1,
      (ps.map (fun pt => pt.2)).foldl min p.2, (ps.map (fun pt => pt.2)).foldl max p.2⟩, ?_⟩
    simp [computeBBox, hap, pyMin, pyMax]

/-- With a non-empty polygon set, `boundaryLoader` is driven entirely by the
bounding-box computation. -/
lemma boundaryLoader_nonempty (features : List Geometry)
    (hp : loadPolygons features ≠ []) :
    boundaryLoader features =
      match computeBBox (loadPolygons features) with
      | .error e => .error e
      | .ok bbox => .ok (loadPolygons features, bbox) := by
  unfold boundaryLoader
  have hne : (loadPolygons features).isEmpty = false := by
    cases hl : loadPolygons features with
    | nil => exact absurd hl hp
    | cons a l => rfl
  simp [hne]

/-- C8: the polygon set built by the boundary loader is exactly the
concatenation, in feature order, of one polygon per Polygon feature and all
polygons of each MultiPolygon feature, every other geometry type contributing
nothing; and the loader fails with the `SystemExit` configuration error
("no polygon geometry found") — producing no output — exactly when that
polygon set is empty. -/
theorem boundaryLoader_spec (features : List Geometry) :
    loadPolygons features = features.flatMap geomPolygons ∧
    (boundaryLoader features
        = .error (.systemExit "No polygon geometry found in admin0.json")
      ↔ loadPolygons features = []) := by
  refine ⟨loadPolygons_eq_flatMap features, ?_, ?_⟩
  · intro h
    by_contra hp
    rcases computeBBox_cases (loadPolygons features) with ⟨hap, hcb⟩ | ⟨hap, ⟨bbox, hcb⟩⟩
    · rw [boundaryLoader_nonempty features hp, hcb] at h
      simp at h
    · rw [boundaryLoader_nonempty features hp, hcb] at h
      simp at h
  · intro h
    unfold boundaryLoader
    simp [h]

/-- C9 counterexample: one Polygon feature with an empty coordinates list
yields a non-empty polygon set with zero vertices; there `boundaryLoader`
fails with the `ValueError` of `min()` on an empty sequence, not with the
`SystemExit` configuration error of the empty-polygon-set case. -/
theorem boundaryLoader_zero_vertices_cex :
    loadPolygons [Geometry.polygonGeom []] ≠ [] ∧
      allPoints (loadPolygons [Geometry.polygonGeom []]) = [] ∧
      boundaryLoader [Geometry.polygonGeom []]
        = .error (.valueError "min() arg is an empty sequence") ∧
      boundaryLoader [Geometry.polygonGeom []]
        ≠ .error (.systemExit "No polygon geometry found in admin0.json") := by
  have h3 : boundaryLoader [Geometry.polygonGeom []]
      = .error (.valueError "min() arg is an empty sequence") := rfl
  refine ⟨by simp [loadPolygons, loadStep], by simp [loadPolygons, loadStep, allPoints],
    h3, ?_⟩
  rw [h3]
  simp

/-- C9 as the code forces it to be amended: when the normalized polygon set
is non-empty but has zero vertices in total, the bounding-box computation
fails with the empty-sequence `ValueError` — a different error kind from the
`SystemExit` configuration error of the empty-polygon-set case — and still
produces no output. -/
theorem boundaryLoader_zero_vertices (features : List Geometry)
    (h1 : loadPolygons features ≠ []) (h2 : allPoints (loadPolygons features) = []) :
    boundaryLoader features = .error (.valueError "min() arg is an empty sequence") := by
  rcases computeBBox_cases (loadPolygons features) with ⟨hap, hcb⟩ | ⟨hap, ⟨bbox, hcb⟩⟩
  · rw [boundaryLoader_nonempty features h1, hcb]
  · exact absurd h2 hap

/-- Witness for the amended C9: two Polygon features with empty coordinate
lists give a non-empty, vertex-free polygon set on which the loader fails
with the `ValueError`. -/
theorem boundaryLoader_zero_vertices_witness :
    loadPolygons [Geometry.polygonGeom [], Geometry.polygonGeom []] ≠ [] ∧
      allPoints (loadPolygons [Geometry.polygonGeom [], Geometry.polygonGeom []]) = [] ∧
      boundaryLoader [Geometry.polygonGeom [], Geometry.polygonGeom []]
        = .error (.valueError "min() arg is an empty sequence") :=
  ⟨by simp [loadPolygons, loadStep], by simp [loadPolygons, loadStep, allPoints],
    boundaryLoader_zero_vertices _ (by simp [loadPolygons, loadStep])
      (by simp [loadPolygons, loadStep, allPoints])⟩

/-- C10: a candidate feature whose geometry field is missing or null has an
empty coordinate array, so it fails the keep condition exactly as a feature
with fewer than two coordinate elements does: it is silently removed from the
kept output without any error while still being counted in `bboxCount`. -/
theorem missing_geometry_skipped (polygons : MultiPolygon) (pre post : List Feature)
    (f : Feature) (hf : f.geometry = none ∨ f.geometry = some ⟨none⟩) :
    featureCoords f = [] ∧
    keepFeature polygons f = false ∧
    mainFilter (pre ++ f :: post) polygons = mainFilter (pre ++ post) polygons ∧
    (filterPipeline (pre ++ f :: post) polygons).bboxCount
      = pre.length + post.length + 1 := by
  have hcoords : featureCoords f = [] := by
    rcases hf with h | h <;> simp [featureCoords, h]
  have hkeep : keepFeature polygons f = false := by
    simp [keepFeature, hcoords]
  refine ⟨hcoords, hkeep, ?_, ?_⟩
  · rw [mainFilter_eq_filter, mainFilter_eq_filter]
    simp [List.filter_append, List.filter_cons, hkeep]
  · simp only [filterPipeline, List.length_append, List.length_cons]
    omega

/-- Witness for C10: a feature with no geometry field, placed between two
well-formed candidates, is skipped while the total count still includes it. -/
theorem missing_geometry_skipped_witness :
    (featNoGeom.geometry = none ∨ featNoGeom.geometry = some ⟨none⟩) ∧
      (featureCoords featNoGeom = [] ∧
        keepFeature [squareA] featNoGeom = false ∧
        mainFilter [featA, featNoGeom, featB] [squareA]
          = mainFilter [featA, featB] [squareA] ∧
        (filterPipeline [featA, featNoGeom, featB] [squareA]).bboxCount
          = [featA].length + [featB].length + 1) :=
  ⟨Or.inl rfl, missing_geometry_skipped [squareA] [featA] [featB] featNoGeom (Or.inl rfl)⟩

end UsgsQuakes
